import Mathlib

/-!
Verification of the `tcgen` interception-and-recording pipeline.

The development shallowly embeds the three source files:
* `src/lib/executor/index.js` — the invocation normalizer (`Executor`);
* `src/lib/tcgen/index.js` — the call interceptor, unit instrumenter and
  value snapshotter (`Tcgen`);
* `src/lib/logger/index.js` — the fixture recorder (`FileLogger`).

JavaScript runtime values are embedded as the inductive type `JSVal`;
callables under test are embedded as an explicit behaviour record
(`MethodBehavior`) describing what one invocation of the callable does:
its synchronous outcome when invoked directly or constructed, the calls
it makes on the function found in its last argument position, and the
fate of the promise it returns (when it returns one).  Stateful code is
embedded as explicit state threading; observable effects (calls made to
opaque function values, the arguments passed to the executor's
`outputHandler`) are collected in an explicit trace.
-/

namespace TcgenModel

/-- A JavaScript runtime value.  Functions and promises are opaque: a
function value carries only a numeric identity; a call to it is recorded
in the trace.  Cyclic structures are not representable, which is fine:
top-level `undefined` and function values already exercise the
non-serializable branch of the snapshotter. -/
inductive JSVal where
  | undefined
  | jnull
  | jbool (b : Bool)
  | jnum (n : Int)
  | jstr (s : String)
  | jarr (elems : List JSVal)
  | jobj (fields : List (String × JSVal))
  | jfunc (id : Nat)
  | jpromise (id : Nat)
deriving Repr

/-- JavaScript truthiness of an embedded value (`if (v)`).  `NaN` and
boxed primitives are not representable, otherwise this follows the JS
ToBoolean rules. -/
def truthy : JSVal → Bool
  | .undefined => false
  | .jnull => false
  | .jbool b => b
  | .jnum n => n != 0
  | .jstr s => s != ""
  | _ => true

/-- `typeof v === 'function'`. -/
def isFunc : JSVal → Bool
  | .jfunc _ => true
  | _ => false

/-- `v === undefined` (used for JS default-parameter resolution). -/
def isUndefined : JSVal → Bool
  | .undefined => true
  | _ => false

/-- `v instanceof Promise`. -/
def isPromise : JSVal → Bool
  | .jpromise _ => true
  | _ => false

/-- `v === false` (JS strict equality against the literal `false`). -/
def strictFalse : JSVal → Bool
  | .jbool false => true
  | _ => false

/-- `v === 1` (JS strict equality against the literal `1`). -/
def strictOne : JSVal → Bool
  | .jnum 1 => true
  | _ => false

/-- The result of JS `typeof`.  Note `typeof null === 'object'`. -/
def typeofJS : JSVal → String
  | .undefined => "undefined"
  | .jnull => "object"
  | .jbool _ => "boolean"
  | .jnum _ => "number"
  | .jstr _ => "string"
  | .jarr _ => "object"
  | .jobj _ => "object"
  | .jfunc _ => "function"
  | .jpromise _ => "object"

/-- Property read `v[k]`: reading from `null` or `undefined` throws a
`TypeError`; a missing key on an object yields `undefined`; property
reads on primitives, arrays and opaque values yield `undefined` (we do
not model their built-in properties, none of which the source reads). -/
def getProp (v : JSVal) (k : String) : Except JSVal JSVal :=
  match v with
  | .jnull => .error (.jstr "TypeError: cannot read properties of null")
  | .undefined => .error (.jstr "TypeError: cannot read properties of undefined")
  | .jobj fields => .ok ((fields.lookup k).getD .undefined)
  | _ => .ok .undefined

/-! ## Value snapshotter: `Tcgen.clonePrimitive`
(src/lib/tcgen/index.js lines 95–101)

`clonePrimitive` is `JSON.parse(JSON.stringify(input))` under a
`try`/`catch` that substitutes `null`.  The platform builtins
`JSON.stringify`/`JSON.parse` are modelled semantically on `JSVal`:
`JSON.stringify` yields no string for top-level `undefined` or a
function (so the subsequent `JSON.parse(undefined)` throws), and the
round trip eliminates non-serializable parts inside containers —
`undefined`/function array elements become `null`, object entries with
such values are dropped, and a promise (an object with no own
enumerable properties) becomes `{}`. -/

/-- Whether `JSON.stringify` produces a string for this value (it yields
`undefined` for top-level `undefined` and for functions). -/
def stringifiable : JSVal → Bool
  | .undefined => false
  | .jfunc _ => false
  | _ => true

mutual

/-- The value produced by the `JSON.parse(JSON.stringify ·)` round trip
on a stringifiable value. -/
def jsonElim : JSVal → JSVal
  | .jarr l => .jarr (jsonElimArr l)
  | .jobj l => .jobj (jsonElimObj l)
  | .jpromise _ => .jobj []
  | v => v

/-- Round trip of array elements: non-stringifiable elements become `null`. -/
def jsonElimArr : List JSVal → List JSVal
  | [] => []
  | x :: xs => (if stringifiable x then jsonElim x else .jnull) :: jsonElimArr xs

/-- Round trip of object entries: entries with non-stringifiable values
are dropped. -/
def jsonElimObj : List (String × JSVal) → List (String × JSVal)
  | [] => []
  | (k, v) :: xs =>
    if stringifiable v then (k, jsonElim v) :: jsonElimObj xs else jsonElimObj xs

end

mutual

/-- A value is JSON-safe when it contains no `undefined`, function or
promise anywhere: on such values the round trip is the identity. -/
def jsonSafe : JSVal → Bool
  | .undefined => false
  | .jfunc _ => false
  | .jpromise _ => false
  | .jarr l => jsonSafeArr l
  | .jobj l => jsonSafeObj l
  | _ => true

/-- All elements JSON-safe. -/
def jsonSafeArr : List JSVal → Bool
  | [] => true
  | x :: xs => jsonSafe x && jsonSafeArr xs

/-- All entry values JSON-safe. -/
def jsonSafeObj : List (String × JSVal) → Bool
  | [] => true
  | (_, v) :: xs => jsonSafe v && jsonSafeObj xs

end

/-- `JSON.parse(JSON.stringify input)` as one fallible operation: it
throws (`SyntaxError` from parsing the string `"undefined"`) exactly
when the value is not stringifiable. -/
def jsonRoundtrip (input : JSVal) : Except JSVal JSVal :=
  if stringifiable input then .ok (jsonElim input) else .error (.jstr "SyntaxError")

/-- `Tcgen.clonePrimitive` (src/lib/tcgen/index.js lines 95–101): the
round trip under `try`/`catch`, substituting `null` on failure. -/
def clonePrimitive (input : JSVal) : JSVal :=
  match jsonRoundtrip input with
  | .ok v => v
  | .error _ => .jnull

/-! ## Invocation normalizer: `Executor` (src/lib/executor/index.js)

`Executor.prototype.execute` invokes the stored callable and reduces
the three calling conventions to calls on `this.outputHandler`:
`resolving(...args)` performs `outputHandler(null, ...args)`,
`rejecting(er)` performs `outputHandler(er)`; both also settle the
internal promise `prm`, whose own settlement no caller can observe
(execute does not return it), so it is not tracked.

The callable under test is embedded as a `MethodBehavior`: what one
invocation of it does.  `cbCallsBefore` are the calls the callable makes
on the value found in its last argument position during the synchronous
invocation; `cbCallsAfter` are such calls it schedules for after the
synchronous part; `callOutcome` / `constructOutcome` are the synchronous
result of `method(...payload)` / `new method(...payload)`; `fate` is
the eventual settlement of the returned value when it is a promise. -/

/-- Synchronous result of invoking a callable: a returned value, or a
thrown error. -/
inductive SyncOutcome where
  | ret (v : JSVal)
  | thrown (e : JSVal)
deriving Repr

/-- Eventual settlement of a promise. -/
inductive PromiseFate where
  | resolved (v : JSVal)
  | rejected (e : JSVal)
  | pending
deriving Repr

/-- Behaviour of one invocation of the callable under test. -/
structure MethodBehavior where
  cbCallsBefore : List (List JSVal)
  callOutcome : SyncOutcome
  constructOutcome : SyncOutcome
  cbCallsAfter : List (List JSVal)
  fate : PromiseFate

/-- One call made on an opaque function value: its identity and the
argument list it received. -/
structure CallEv where
  fn : Nat
  args : List JSVal
deriving Repr

/-- Observable effects accumulated while `execute` runs: the argument
lists passed to `this.outputHandler` (in order), and every call made on
an opaque function value (the handler itself when it is a function, the
saved original callback `prevCb`, a raw last-argument callback). -/
structure ExecSt where
  handlerArgs : List (List JSVal)
  trace : List CallEv
deriving Repr

/-- Identity of the no-op default `outputHandler = () => {}`. -/
def noopId : Nat := 99

/-- Identity of the internal promise `prm` built by `execute`. -/
def prmId : Nat := 1000

/-- Result of one run of `Executor.prototype.execute`: the effects, the
final value of the `returnValue` field (`none` when never assigned) and
the value `execute` itself returns to its caller (the method body has no
`return` statement, so this is always `undefined`). -/
structure ExecResult where
  handlerArgs : List (List JSVal)
  trace : List CallEv
  returnValue : Option JSVal
  executeReturn : JSVal
deriving Repr

/-- Invoke `this.outputHandler` (as `resolving`/`rejecting` do): a
function value records the call; calling a non-function throws a
`TypeError`. -/
def fire (h : JSVal) (args : List JSVal) (s : ExecSt) : Except JSVal ExecSt :=
  match h with
  | .jfunc i => .ok ⟨s.handlerArgs ++ [args], s.trace ++ [⟨i, args⟩]⟩
  | _ => .error (.jstr "TypeError: outputHandler is not a function")

/-- `fire` where a thrown error is absorbed (it propagates into the
`Promise` constructor or the microtask queue, which no caller of
`execute` can observe). -/
def fireAbsorb (h : JSVal) (args : List JSVal) (s : ExecSt) : ExecSt :=
  match fire h args s with
  | .ok s' => s'
  | .error _ => s

/-- The settlement the wrapping callback performs for one invocation
with arguments `a` (lines 65–66): the handler receives `[a[0]]` through
`rejecting` when `a[0]` is truthy, else `null :: a.slice(1)` through
`resolving`. -/
def settleArgs (a : List JSVal) : List JSVal :=
  if truthy (a.headD .undefined) then [a.headD .undefined] else .jnull :: a.drop 1

/-- One invocation of the wrapping callback `cb` installed at the last
argument position (src/lib/executor/index.js lines 64–68): on a truthy
first argument `rejecting(args[0])`, else `resolving(...args.slice(1))`;
afterwards the original arguments are forwarded unchanged to the saved
original callback `prevCb`.  An error thrown by a non-callable handler
propagates to `cb`'s caller (the callable under test). -/
def cbInvoke (h : JSVal) (pid : Nat) (a : List JSVal) (s : ExecSt) :
    Except JSVal ExecSt :=
  match fire h (settleArgs a) s with
  | .ok s' => .ok ⟨s'.handlerArgs, s'.trace ++ [⟨pid, a⟩]⟩
  | .error e => .error e

/-- The callable's synchronous calls on the wrapping callback, in order;
an error stops the callable (it propagates out of its body). -/
def cbInvokeList (h : JSVal) (pid : Nat) (calls : List (List JSVal)) (s : ExecSt) :
    ExecSt × Option JSVal :=
  match calls with
  | [] => (s, none)
  | a :: rest =>
    match cbInvoke h pid a s with
    | .ok s' => cbInvokeList h pid rest s'
    | .error e => (s, some e)

/-- The callable's asynchronous (post-return) calls on the wrapping
callback: each runs as its own task, so an error in one does not stop
the later ones and is absorbed by the task queue. -/
def cbInvokeAbsorbList (h : JSVal) (pid : Nat) (calls : List (List JSVal))
    (s : ExecSt) : ExecSt :=
  match calls with
  | [] => s
  | a :: rest =>
    match cbInvoke h pid a s with
    | .ok s' => cbInvokeAbsorbList h pid rest s'
    | .error _ => cbInvokeAbsorbList h pid rest s

/-- When the last argument was not replaced (no callback mode), the
calls the callable makes on it go to the original value: they are plain
trace events when it is a function (and do not happen otherwise). -/
def rawCbTrace (lastArg : JSVal) (calls : List (List JSVal)) (s : ExecSt) : ExecSt :=
  match lastArg with
  | .jfunc pid => ⟨s.handlerArgs, s.trace ++ calls.map (fun a => ⟨pid, a⟩)⟩
  | _ => s

/-- Resolution of the constructor's `outputHandler = () => {}` default
parameter. -/
def resolveHandler (outputHandlerArg : JSVal) : JSVal :=
  if isUndefined outputHandlerArg then .jfunc noopId else outputHandlerArg

/-- Resolution of the constructor's `construct = false` default
parameter. -/
def resolveConstruct (constructArg : JSVal) : JSVal :=
  if isUndefined constructArg then .jbool false else constructArg

/-- The callback-mode test of line 61:
`this.isAsync !== false && this.isAsync !== 1 &&
typeof payload[payload.length - 1] === 'function'`. -/
def returnWithCBOf (isAsyncArg : JSVal) (params : List JSVal) : Bool :=
  !strictFalse isAsyncArg && !strictOne isAsyncArg
    && isFunc ((params.getLast?).getD .undefined)

/-- The synchronous outcome of the `try` block: `new method(...payload)`
when `this.construct` is truthy (lines 71–77; `bind.apply` with the
`null`-prefixed payload constructs with the original arguments),
else `method(...payload)` (line 79). -/
def outcomeOf (m : MethodBehavior) (constructV : JSVal) : SyncOutcome :=
  if truthy constructV then m.constructOutcome else m.callOutcome

/-- Build the final `ExecResult`: line 91 (`if (this.isAsync)
this.returnValue = prm`) runs after the `Promise` executor, overwriting
any line-80 assignment with the internal promise; `execute` falls off
the end of its body, returning `undefined`. -/
def finishExec (isAsyncArg : JSVal) (s : ExecSt) (rv : Option JSVal) : ExecResult :=
  { handlerArgs := s.handlerArgs
    trace := s.trace
    returnValue := if truthy isAsyncArg then some (.jpromise prmId) else rv
    executeReturn := .undefined }

/-- `Executor.prototype.execute` (src/lib/executor/index.js lines
46–94), for the executor built by
`new Executor(method, outputHandlerArg, constructArg, isAsyncArg)` and
invoked as `execute(...params)`, where the stored callable behaves as
`m` on this invocation.

* In callback mode the last argument is replaced by the wrapping
  callback; the callable's synchronous return value is ignored for
  completion (line 85 returns before line 89), `this.returnValue` is
  still assigned on the non-constructor path (line 80), and a
  synchronous throw is caught and reported via `rejecting` (line 83).
* Otherwise a throw reports via `rejecting`; a returned promise with
  `isAsync !== false` drives completion through its settlement
  (line 87); any other return reports via `resolving` (line 89).

The body of the `Promise` executor (lines 48–89) is `executeCore`, run
with the already-resolved `this.outputHandler` and `this.construct`: it
yields the accumulated effects, paired with the value the `try` block
assigned to `this.returnValue` at line 80 (`none` when line 80 did not
run); `execute` is then that body followed by line 91. -/
def executeCore (m : MethodBehavior) (handlerV constructV isAsyncArg : JSVal)
    (params : List JSVal) : ExecSt × Option JSVal :=
  if returnWithCBOf isAsyncArg params then
    let pid := match (params.getLast?).getD .undefined with | .jfunc i => i | _ => 0
    match cbInvokeList handlerV pid m.cbCallsBefore ⟨[], []⟩ with
    | (s1, some e) =>
      -- the wrapping callback threw into the callable; the escaping
      -- error is caught by the try (line 82) and reported
      (cbInvokeAbsorbList handlerV pid m.cbCallsAfter (fireAbsorb handlerV [e] s1),
       none)
    | (s1, none) =>
      match outcomeOf m constructV with
      | .thrown e =>
        (cbInvokeAbsorbList handlerV pid m.cbCallsAfter (fireAbsorb handlerV [e] s1),
         none)
      | .ret v =>
        (cbInvokeAbsorbList handlerV pid m.cbCallsAfter s1,
         if truthy constructV then none else some v)
  else
    let s1 := rawCbTrace ((params.getLast?).getD .undefined)
      (m.cbCallsBefore ++ m.cbCallsAfter) ⟨[], []⟩
    match outcomeOf m constructV with
    | .thrown e => (fireAbsorb handlerV [e] s1, none)
    | .ret v =>
      let rv := if truthy constructV then none else some v
      if !strictFalse isAsyncArg && isPromise v then
        match m.fate with
        | .resolved w =>
          -- ret.then(resolving): a throw inside the fulfilled handler
          -- is passed on to .catch(rejecting)
          (match fire handlerV (.jnull :: [w]) s1 with
           | .ok s' => s'
           | .error e2 => fireAbsorb handlerV [e2] s1,
           rv)
        | .rejected e => (fireAbsorb handlerV [e] s1, rv)
        | .pending => (s1, rv)
      else
        (fireAbsorb handlerV (.jnull :: [v]) s1, rv)

def execute (m : MethodBehavior) (outputHandlerArg constructArg isAsyncArg : JSVal)
    (params : List JSVal) : ExecResult :=
  finishExec isAsyncArg
    (executeCore m (resolveHandler outputHandlerArg) (resolveConstruct constructArg)
      isAsyncArg params).1
    (executeCore m (resolveHandler outputHandlerArg) (resolveConstruct constructArg)
      isAsyncArg params).2

/-! ## Call interceptor wiring: `Tcgen.handleFunctionUnderTest`
(src/lib/tcgen/index.js lines 130–149)

`handleFunctionUnderTest (sLogger, ent, prop, isConstructor = false)`
returns the replacement callable `mainCall`.  On each invocation
`mainCall`:
1. snapshots the arguments,
2. builds `new Executor(ent, prop, completionClosure, isConstructor)` —
   note the argument positions against `Executor`'s constructor
   `(method, outputHandler, construct, isAsync)`: the completion closure
   (the function that would push the outcome and call `sLogger`) is
   passed in the `construct` slot, `prop` lands in the `outputHandler`
   slot and `isConstructor` in the `isAsync` slot,
3. runs `executor.execute(...args)`, and
4. returns `executor.returnValue` (reading a never-assigned field yields
   `undefined`).

`mainCall` itself never throws: the only code that can throw runs inside
the `Promise` executor, whose exceptions the `Promise` constructor
absorbs into the (discarded) internal promise. -/

/-- Identity of the completion closure `(err, ...data) => { ...;
sLogger.apply(sLogger, applyArgs) }` built inside `mainCall`. -/
def completionClosureId : Nat := 77

/-- One invocation of the wrapper `mainCall` (src/lib/tcgen/index.js
lines 136–148): the value returned to the wrapper's caller, paired with
the `ExecResult` of the drive through `Executor`.  `propArg` and
`isConstructorArg` are the values bound to `handleFunctionUnderTest`'s
third and fourth parameters (the fourth defaulting to `false`). -/
def mainCall (m : MethodBehavior) (propArg isConstructorArg : JSVal)
    (args : List JSVal) : JSVal × ExecResult :=
  let isC := if isUndefined isConstructorArg then .jbool false else isConstructorArg
  let r := execute m propArg (.jfunc completionClosureId) isC args
  (r.returnValue.getD .undefined, r)

/-- Number of times the completion closure was invoked during a run —
each such invocation performs exactly one `sLogger.apply(sLogger,
applyArgs)`, i.e. one fixture record. -/
def logCalls (r : ExecResult) : Nat :=
  (r.trace.filter (fun ev => ev.fn == completionClosureId)).length

/-- JS parameter binding of `Tcgen.handleFunctionUnderTest(sLogger, ent,
prop, isConstructor = false)` applied to an explicit argument list:
the pair (value bound to `prop`, value bound to `isConstructor`). -/
def handleFUTBoundParams (args : List JSVal) : JSVal × JSVal :=
  let prop := args.getD 2 .undefined
  let rawC := args.getD 3 .undefined
  (prop, if isUndefined rawC then .jbool false else rawC)

/-- The argument list of the call `Tcgen.handleFunctionUnderTest(
sLogger, cls.prototype[prop].bind(cls.prototype), prop === 'constructor')`
made by `instrumentClass` for a prototype member named `p`
(src/lib/tcgen/index.js lines 169–172). -/
def instrumentProtoCallArgs (sLogger bound : JSVal) (p : String) : List JSVal :=
  [sLogger, bound, .jbool (p == "constructor")]

/-- The argument list of the call `Tcgen.handleFunctionUnderTest(
sLogger, cls[prop].bind(cls))` made by `instrumentClass` for a static
member (src/lib/tcgen/index.js line 165). -/
def instrumentStaticCallArgs (sLogger bound : JSVal) : List JSVal :=
  [sLogger, bound]

/-! ## Fixture recorder: `FileLogger` (src/lib/logger/index.js)

`updateWriter` (lines 43–51) opens a stream and writes the header with
the template literal
`` `{"type":"unit","require":"${join(this.sourcePath, this.fileBaseName)},"tests":[` ``
(note: the template contains no closing quote after the interpolation,
and the opening brace of the object is never matched by a closing one).
`log` (lines 72–84) appends `"\n" + JSON.stringify(record, null, 2)` —
with no separator between consecutive records.  `stop` (lines 57–62)
ends the stream with the footer `"]\n"`.

The accumulated byte content of one closed stream is modelled by
`streamContent`; whether a string parses as one complete JSON document
is decided by the recursive-descent checker `jsonValid` below. -/

/-- `path.join` for two relative segments (Node ignores empty
segments). -/
def pathJoin (a b : String) : String :=
  if a = "" then b else if b = "" then a else a ++ "/" ++ b

/-- The header written by `FileLogger.updateWriter` (line 49) — the
faithful text of the template literal, closing quote absent as in the
source. -/
def loggerHeader (sourcePath fileBaseName : String) : String :=
  "\x7b\"type\":\"unit\",\"require\":\"" ++ pathJoin sourcePath fileBaseName
    ++ ",\"tests\":["

/-- The footer written by `FileLogger.stop` (line 59). -/
def loggerFooter : String := "]\n"

/-- The chunk appended by `FileLogger.log` (line 83) for one serialized
record. -/
def loggerRecordChunk (recordJson : String) : String := "\n" ++ recordJson

/-- The accumulated content of one fixture stream that was opened,
received the given serialized records, and was closed by `stop` (or by
day rollover, which calls `stop` before opening the next stream). -/
def streamContent (sourcePath fileBaseName : String) (records : List String) :
    String :=
  loggerHeader sourcePath fileBaseName
    ++ String.join (records.map loggerRecordChunk) ++ loggerFooter

/-- JSON whitespace. -/
def jsonWs (c : Char) : Bool :=
  c = ' ' || c = '\n' || c = '\t' || c = '\r'

/-- Drop leading JSON whitespace. -/
def skipWs : List Char → List Char
  | [] => []
  | c :: cs => if jsonWs c then skipWs cs else c :: cs

/-- Decimal digit. -/
def isDigitC (c : Char) : Bool := '0' ≤ c && c ≤ '9'

/-- Hexadecimal digit. -/
def isHexC (c : Char) : Bool :=
  isDigitC c || ('a' ≤ c && c ≤ 'f') || ('A' ≤ c && c ≤ 'F')

/-- Consume one or more decimal digits. -/
def digits1 : List Char → Option (List Char)
  | c :: cs =>
    if isDigitC c then
      some (cs.dropWhile isDigitC)
    else none
  | [] => none

/-- Consume the remainder of a JSON string literal (the opening quote
already consumed): ordinary characters, `\`-escapes, `\u` plus four hex
digits; ends at the closing quote. -/
def jsonStringRest (fuel : Nat) (cs : List Char) : Option (List Char) :=
  match fuel, cs with
  | 0, _ => none
  | _, [] => none
  | f + 1, c :: cs =>
    if c = '"' then some cs
    else if c = '\\' then
      match cs with
      | [] => none
      | e :: cs2 =>
        if e = 'u' then
          match cs2 with
          | h1 :: h2 :: h3 :: h4 :: cs3 =>
            if isHexC h1 && isHexC h2 && isHexC h3 && isHexC h4 then
              jsonStringRest f cs3
            else none
          | _ => none
        else if e = '"' || e = '\\' || e = '/' || e = 'b' || e = 'f' || e = 'n'
            || e = 'r' || e = 't' then
          jsonStringRest f cs2
        else none
    else jsonStringRest f cs

/-- Consume a JSON number: `-? (0 | [1-9][0-9]*) frac? exp?`. -/
def jsonNumber (cs : List Char) : Option (List Char) :=
  let cs := match cs with
    | '-' :: rest => rest
    | _ => cs
  match cs with
  | '0' :: rest => jsonNumberFrac rest
  | c :: rest =>
    if isDigitC c then jsonNumberFrac (rest.dropWhile isDigitC) else none
  | [] => none
where
  /-- optional fraction then optional exponent -/
  jsonNumberFrac (cs : List Char) : Option (List Char) :=
    let frac := match cs with
      | '.' :: rest => digits1 rest
      | _ => some cs
    match frac with
    | none => none
    | some cs2 =>
      match cs2 with
      | 'e' :: rest => jsonNumberExp rest
      | 'E' :: rest => jsonNumberExp rest
      | _ => some cs2
  /-- optional sign then digits -/
  jsonNumberExp (cs : List Char) : Option (List Char) :=
    match cs with
    | '+' :: rest => digits1 rest
    | '-' :: rest => digits1 rest
    | _ => digits1 cs

mutual

/-- Consume one JSON value (leading whitespace allowed). -/
def jsonValue (fuel : Nat) (cs : List Char) : Option (List Char) :=
  match fuel with
  | 0 => none
  | f + 1 =>
    match skipWs cs with
    | [] => none
    | c :: rest =>
      if c = '"' then jsonStringRest f rest
      else if c = '\x7b' then jsonObjBody f rest
      else if c = '[' then jsonArrBody f rest
      else
        match c :: rest with
        | 't' :: 'r' :: 'u' :: 'e' :: cs2 => some cs2
        | 'f' :: 'a' :: 'l' :: 's' :: 'e' :: cs2 => some cs2
        | 'n' :: 'u' :: 'l' :: 'l' :: cs2 => some cs2
        | cs2 => jsonNumber cs2

/-- After `{`: either `}` or members. -/
def jsonObjBody (fuel : Nat) (cs : List Char) : Option (List Char) :=
  match fuel with
  | 0 => none
  | f + 1 =>
    match skipWs cs with
    | '\x7d' :: rest => some rest
    | cs2 => jsonMembers f cs2

/-- One or more `"key": value` members separated by commas, then `}`. -/
def jsonMembers (fuel : Nat) (cs : List Char) : Option (List Char) :=
  match fuel with
  | 0 => none
  | f + 1 =>
    match skipWs cs with
    | '"' :: rest =>
      match jsonStringRest f rest with
      | none => none
      | some cs2 =>
        match skipWs cs2 with
        | ':' :: cs3 =>
          match jsonValue f cs3 with
          | none => none
          | some cs4 =>
            match skipWs cs4 with
            | ',' :: cs5 => jsonMembers f cs5
            | '\x7d' :: cs5 => some cs5
            | _ => none
        | _ => none
    | _ => none

/-- After `[`: either `]` or elements. -/
def jsonArrBody (fuel : Nat) (cs : List Char) : Option (List Char) :=
  match fuel with
  | 0 => none
  | f + 1 =>
    match skipWs cs with
    | ']' :: rest => some rest
    | cs2 => jsonElements f cs2

/-- One or more values separated by commas, then `]`. -/
def jsonElements (fuel : Nat) (cs : List Char) : Option (List Char) :=
  match fuel with
  | 0 => none
  | f + 1 =>
    match jsonValue f cs with
    | none => none
    | some cs2 =>
      match skipWs cs2 with
      | ',' :: cs3 => jsonElements f cs3
      | ']' :: cs3 => some cs3
      | _ => none

end

/-- Whether a string is one complete, syntactically valid JSON
document. -/
def jsonValid (s : String) : Bool :=
  match jsonValue (s.length + 1) s.toList with
  | some rest => (skipWs rest).isEmpty
  | none => false

/-! ## `Tcgen` constructor (src/lib/tcgen/index.js lines 27–47)

The constructor asserts `typeof config === 'object'` and
`typeof config.srcdir === 'string'`, then sets `srcdir`, derives
`destdir` as `config.destdir || join(tmpdir(), MODULE_CODE,
this.srcdir.split(sep).slice(-3, -1)[0])`, creates the destination
directory (`mkdirpSync`) and populates `filelist` via
`Tcgen.walkSync(this.srcdir)`.

The filesystem is abstract: `walk` is the oracle for what
`Tcgen.walkSync` returns on a directory, and the operations performed
against the filesystem are returned as a trace (so "before touching the
filesystem" is statable).  `MODULE_CODE` is the package name `tcgen`;
`sep` is `/`. -/

/-- An error thrown by the constructor: a failed `assert.strictEqual`,
or a `TypeError` from the underlying runtime. -/
inductive TcErr where
  | assertionError (msg : String)
  | typeError (msg : String)
deriving Repr, DecidableEq

/-- The fields the constructor sets on success. -/
structure TcgenState where
  srcdir : String
  destdir : String
  filelist : List String
deriving Repr, DecidableEq

/-- JS `str.split('/')`: split into the (never empty) list of
separator-delimited segments, keeping empty segments —
`"a/b" ↦ ["a", "b"]`, `"x" ↦ ["x"]`, `"" ↦ [""]`. -/
def splitSepChars : List Char → List String
  | [] => [""]
  | c :: cs =>
    if c = '/' then "" :: splitSepChars cs
    else
      match splitSepChars cs with
      | [] => [String.mk [c]]
      | t :: ts => String.mk (c :: t.toList) :: ts

/-- JS `str.split('/')` on a string. -/
def splitSep (s : String) : List String := splitSepChars s.toList

/-- JS `arr.slice(-3, -1)[0]` on a list of strings: `none` plays the
role of `undefined` (slice start is clamped to `0`, end to `0`). -/
def sliceNeg3Neg1Head (l : List String) : Option String :=
  let n := l.length
  ((l.drop (n - 3)).take ((n - 1) - (n - 3))).head?

/-- `path.join` of three segments. -/
def pathJoin3 (a b c : String) : String := pathJoin (pathJoin a b) c

/-- Derivation of `this.destdir` (line 38): `config.destdir` when
truthy, else `join(tmpdir(), 'tcgen', srcdir.split('/').slice(-3,-1)[0])`
— and `path.join` throws a `TypeError` when the indexed segment is
`undefined` (a split with fewer than two segments).  A truthy
non-string `config.destdir` is kept as-is by the source and would only
fail later inside `mkdirpSync`; that is modelled as a `TypeError` too. -/
def resolveDestdir (destdirV : JSVal) (tmpdir s : String) : Except TcErr String :=
  if truthy destdirV then
    match destdirV with
    | .jstr d => .ok d
    | _ => .error (.typeError "mkdirp: path must be a string")
  else
    match sliceNeg3Neg1Head (splitSep s) with
    | none => .error (.typeError "path.join: argument must be a string")
    | some seg => .ok (pathJoin3 tmpdir "tcgen" seg)

/-- The value of `config.destdir` as read by line 38 (the read cannot
throw here: the null/undefined cases were already stopped by the reads
and asserts of lines 28–29). -/
def destdirOf (config : JSVal) : JSVal :=
  match getProp config "destdir" with
  | .ok d => d
  | .error _ => .undefined

/-- The `Tcgen` constructor (src/lib/tcgen/index.js lines 27–47): the
thrown error or the constructed state, together with the trace of
filesystem operations performed. -/
def tcgenCtor (config : JSVal) (tmpdir : String) (walk : String → List String) :
    Except TcErr TcgenState × List String :=
  if typeofJS config ≠ "object" then
    (.error (.assertionError "config MUST_BE_OBJECT"), [])
  else
    match getProp config "srcdir" with
    | .error e =>
      (.error (.typeError ((fun x => match x with
        | JSVal.jstr m => m
        | _ => "TypeError") e)), [])
    | .ok sv =>
      if typeofJS sv ≠ "string" then
        (.error (.assertionError "srcdir MUST_BE_STRING"), [])
      else
        match sv with
        | .jstr s =>
          match resolveDestdir (destdirOf config) tmpdir s with
          | .error e => (.error e, [])
          | .ok d =>
            (.ok ⟨s, d, walk s⟩, ["mkdirp " ++ d, "walk " ++ s])
        | _ => (.error (.assertionError "srcdir MUST_BE_STRING"), [])

/-! ## Helper lemmas about the snapshotter -/

theorem stringifiable_of_jsonSafe (v : JSVal) (h : jsonSafe v = true) :
    stringifiable v = true := by
  cases v <;> simp_all [jsonSafe, stringifiable]

mutual

theorem jsonElim_id : (v : JSVal) → jsonSafe v = true → jsonElim v = v
  | .jnull, _ => rfl
  | .jbool _, _ => rfl
  | .jnum _, _ => rfl
  | .jstr _, _ => rfl
  | .jarr l, h => by
      rw [jsonElim, jsonElimArr_id l (by simpa [jsonSafe] using h)]
  | .jobj l, h => by
      rw [jsonElim, jsonElimObj_id l (by simpa [jsonSafe] using h)]

theorem jsonElimArr_id : (l : List JSVal) → jsonSafeArr l = true → jsonElimArr l = l
  | [], _ => rfl
  | x :: xs, h => by
      have hx : jsonSafe x = true := by
        simp [jsonSafeArr] at h; exact h.1
      have hxs : jsonSafeArr xs = true := by
        simp [jsonSafeArr] at h; exact h.2
      rw [jsonElimArr, stringifiable_of_jsonSafe x hx, jsonElim_id x hx,
        jsonElimArr_id xs hxs]
      simp

theorem jsonElimObj_id : (l : List (String × JSVal)) → jsonSafeObj l = true →
    jsonElimObj l = l
  | [], _ => rfl
  | (k, v) :: xs, h => by
      have hv : jsonSafe v = true := by
        simp [jsonSafeObj] at h; exact h.1
      have hxs : jsonSafeObj xs = true := by
        simp [jsonSafeObj] at h; exact h.2
      rw [jsonElimObj, stringifiable_of_jsonSafe v hv]
      simp [jsonElim_id v hv, jsonElimObj_id xs hxs]

end

/-! ## Helper lemmas about the normalizer -/

theorem fire_func (i : Nat) (args : List JSVal) (s : ExecSt) :
    fire (.jfunc i) args s
      = .ok ⟨s.handlerArgs ++ [args], s.trace ++ [⟨i, args⟩]⟩ := rfl

theorem fireAbsorb_func (i : Nat) (args : List JSVal) (s : ExecSt) :
    fireAbsorb (.jfunc i) args s
      = ⟨s.handlerArgs ++ [args], s.trace ++ [⟨i, args⟩]⟩ := rfl

theorem cbInvoke_func (i pid : Nat) (a : List JSVal) (s : ExecSt) :
    cbInvoke (.jfunc i) pid a s
      = .ok ⟨s.handlerArgs ++ [settleArgs a],
             s.trace ++ [⟨i, settleArgs a⟩, ⟨pid, a⟩]⟩ := by
  simp [cbInvoke, fire]

theorem cbInvokeList_func (i pid : Nat) :
    ∀ (calls : List (List JSVal)) (s : ExecSt),
      cbInvokeList (.jfunc i) pid calls s
        = (⟨s.handlerArgs ++ calls.map settleArgs,
            s.trace ++ (calls.map
              (fun a => [CallEv.mk i (settleArgs a), CallEv.mk pid a])).flatten⟩,
           none)
  | [], s => by simp [cbInvokeList]
  | a :: rest, s => by
      simp [cbInvokeList, cbInvoke_func, cbInvokeList_func i pid rest]

theorem cbInvokeAbsorbList_func (i pid : Nat) :
    ∀ (calls : List (List JSVal)) (s : ExecSt),
      cbInvokeAbsorbList (.jfunc i) pid calls s
        = ⟨s.handlerArgs ++ calls.map settleArgs,
           s.trace ++ (calls.map
             (fun a => [CallEv.mk i (settleArgs a), CallEv.mk pid a])).flatten⟩
  | [], s => by simp [cbInvokeAbsorbList]
  | a :: rest, s => by
      simp [cbInvokeAbsorbList, cbInvoke_func, cbInvokeAbsorbList_func i pid rest]

theorem rawCbTrace_handlerArgs (l : JSVal) (cs : List (List JSVal)) (s : ExecSt) :
    (rawCbTrace l cs s).handlerArgs = s.handlerArgs := by
  cases l <;> rfl

theorem returnWithCB_lastFunc (ia : JSVal) (ps : List JSVal)
    (h : returnWithCBOf ia ps = true) :
    ∃ pid, (ps.getLast?).getD .undefined = .jfunc pid := by
  unfold returnWithCBOf at h
  cases hv : (ps.getLast?).getD JSVal.undefined <;> rw [hv] at h <;>
    simp [isFunc] at h
  exact ⟨_, rfl⟩

/-- `execute` falls off the end of its body: it returns `undefined` in
every case. -/
theorem execute_executeReturn (m : MethodBehavior)
    (h c ia : JSVal) (ps : List JSVal) :
    (execute m h c ia ps).executeReturn = .undefined := rfl

/-- `execute` only writes the `handlerArgs`/`trace`/`returnValue`
fields of its result from `executeCore`; line 91 overwrites
`returnValue` with the internal promise when `isAsync` is truthy. -/
theorem execute_returnValue (m : MethodBehavior) (h c ia : JSVal) (ps : List JSVal) :
    (execute m h c ia ps).returnValue
      = (if truthy ia then some (.jpromise prmId)
         else (executeCore m (resolveHandler h) (resolveConstruct c) ia ps).2) := rfl

/-- Closed form of the callback-mode run of the `Promise` executor body
for a callable `outputHandler`: the handler receives one settlement per
callback invocation, plus the caught synchronous throw if any; line 80
assigns the synchronous return value exactly on the non-constructor
non-throwing path. -/
theorem executeCore_cb (m : MethodBehavior) (cv ia : JSVal) (ps : List JSVal)
    (hid pid : Nat)
    (hcb : returnWithCBOf ia ps = true)
    (hlast : (ps.getLast?).getD .undefined = .jfunc pid) :
    (executeCore m (.jfunc hid) cv ia ps).1.handlerArgs
      = m.cbCallsBefore.map settleArgs
        ++ (match outcomeOf m cv with
            | .thrown e => [[e]]
            | .ret _ => [])
        ++ m.cbCallsAfter.map settleArgs
    ∧ (executeCore m (.jfunc hid) cv ia ps).2
      = (match outcomeOf m cv with
         | .ret v => if truthy cv then none else some v
         | .thrown _ => none) := by
  unfold executeCore
  rw [hcb]
  simp only [if_true, hlast, cbInvokeList_func]
  cases ho : outcomeOf m cv with
  | ret v =>
    simp [cbInvokeAbsorbList_func]
  | thrown e =>
    simp [fireAbsorb_func, cbInvokeAbsorbList_func]

/-- Closed form of the non-callback run of the `Promise` executor body
for a callable `outputHandler`: the handler receives the caught throw,
or the settlement of the returned promise, or the synchronous return
value. -/
theorem executeCore_noncb (m : MethodBehavior) (cv ia : JSVal) (ps : List JSVal)
    (hid : Nat)
    (hcb : returnWithCBOf ia ps = false) :
    (executeCore m (.jfunc hid) cv ia ps).1.handlerArgs
      = (match outcomeOf m cv with
         | .thrown e => [[e]]
         | .ret v =>
           if !strictFalse ia && isPromise v then
             match m.fate with
             | .resolved w => [[.jnull, w]]
             | .rejected e => [[e]]
             | .pending => []
           else [[.jnull, v]])
    ∧ (executeCore m (.jfunc hid) cv ia ps).2
      = (match outcomeOf m cv with
         | .ret v => if truthy cv then none else some v
         | .thrown _ => none) := by
  unfold executeCore
  rw [hcb]
  simp only [Bool.false_eq_true, if_false]
  cases ho : outcomeOf m cv with
  | ret v =>
    by_cases hpr : (!strictFalse ia && isPromise v) = true
    · cases hf : m.fate <;>
        simp [hpr, fire_func, fireAbsorb_func, rawCbTrace_handlerArgs]
    · rw [Bool.not_eq_true] at hpr
      simp [hpr, fireAbsorb_func, rawCbTrace_handlerArgs]
  | thrown e =>
    simp [fireAbsorb_func, rawCbTrace_handlerArgs]

/-! ## The claims -/

/-- C1: the claim states that for every synchronous, non-throwing
callable `f` and argument tuple `a`, the interceptor-wrapped `f` returns
the same value to its caller as `f(a)`.  The code violates this:
`mainCall` builds `new Executor(ent, prop, completionClosure,
isConstructor)`, so the (truthy) completion closure lands in the
`construct` slot, `execute` takes the constructor path and never
assigns `returnValue`, and the wrapper returns `undefined`.  Here the
wrapped member behaves as `f(2,3) = 42` (and `new f() = {}`), the call
site is a static member (`prop` bound to `undefined`, `isConstructor`
defaulting to `false`, exactly as `instrumentClass` line 165 calls it),
yet the wrapper returns `undefined ≠ 42`. -/
theorem c1_intercepted_sync_call_returns_undefined :
    (mainCall ⟨[], .ret (.jnum 42), .ret (.jobj []), [], .pending⟩
        .undefined .undefined [.jnum 2, .jnum 3]).1 = JSVal.undefined
    ∧ JSVal.undefined ≠ JSVal.jnum 42 :=
  ⟨rfl, fun h => nomatch h⟩

/-- C2: the claim states that every invocation of an intercepted member
captures exactly one fixture record, the recorder's `log` receiving the
five arguments describing the invocation.  The code violates this: the
completion closure — the only code that calls `sLogger` — is passed to
`Executor` in the `construct` slot, where it is only truthiness-tested,
and `prop` (here `undefined`, defaulted to the no-op handler) sits in
the `outputHandler` slot; so the closure is never invoked and no record
is ever logged.  For the same normally-completing invocation as in C1,
the number of completion-closure invocations (= `sLogger.log` calls)
is `0`, not `1`. -/
theorem c2_completion_closure_never_invoked :
    logCalls (mainCall ⟨[], .ret (.jnum 42), .ret (.jobj []), [], .pending⟩
        .undefined .undefined [.jnum 2, .jnum 3]).2 = 0 := rfl

/-- C3: the claim states that a synchronously-throwing callable, when
wrapped, throws the identical error to the original caller.  The code
violates this: the throw happens inside the `Promise` executor, is
caught at line 82 and turned into a rejection of the discarded internal
promise; `mainCall` (which cannot throw) returns
`executor.returnValue`, i.e. `undefined`.  Here the wrapped member
throws `"boom"`: the caller receives `undefined` and no exception,
while the error goes only to the defaulted no-op `outputHandler` (the
single `handlerArgs` entry below). -/
theorem c3_sync_throw_not_resurfaced_to_caller :
    (mainCall ⟨[], .thrown (.jstr "boom"), .thrown (.jstr "boom"), [], .pending⟩
        .undefined .undefined []).1 = JSVal.undefined
    ∧ (mainCall ⟨[], .thrown (.jstr "boom"), .thrown (.jstr "boom"), [], .pending⟩
        .undefined .undefined []).2.handlerArgs = [[.jstr "boom"]] :=
  ⟨rfl, rfl⟩

/-- C7: the claim states that when instrumenting a unit, the prototype
member named `constructor` — and only it — is passed to the call
interceptor with `isConstructor = true`.  The code violates this:
`instrumentClass` (lines 169–172) passes `prop === 'constructor'` as the
third argument of `handleFunctionUnderTest`, i.e. into the `prop`
(member name) slot, and the `isConstructor` parameter defaults to
`false`.  For the member named `constructor`, the interceptor receives
`prop = true` and `isConstructor = false` (never `true`); static members
(line 165, two arguments) yield `prop = undefined`,
`isConstructor = false`. -/
theorem c7_constructor_flag_lands_in_name_slot :
    handleFUTBoundParams (instrumentProtoCallArgs (.jobj []) (.jfunc 3) "constructor")
      = (JSVal.jbool true, JSVal.jbool false)
    ∧ JSVal.jbool false ≠ JSVal.jbool true
    ∧ handleFUTBoundParams (instrumentStaticCallArgs (.jobj []) (.jfunc 4))
      = (JSVal.undefined, JSVal.jbool false) :=
  ⟨rfl, by simp, rfl⟩

/-- C8: the snapshot operation `Tcgen.clonePrimitive` never throws —
the `try`/`catch` yields the round-trip copy when `JSON.stringify`
produces a string and the `null` sentinel otherwise; on JSON-safe
values the copy is structurally equal to the input (hence two snapshots
of the same unmutated value are structurally equal); a non-copyable
value (top-level `undefined` or a function) yields the `null` sentinel,
and the failure never escapes `clonePrimitive`. -/
theorem c8_clonePrimitive_never_throws_faithful_copy (v : JSVal) :
    clonePrimitive v = (if stringifiable v then jsonElim v else .jnull)
    ∧ (jsonSafe v = true → clonePrimitive v = v)
    ∧ (stringifiable v = false → clonePrimitive v = .jnull) := by
  have h1 : clonePrimitive v = (if stringifiable v then jsonElim v else .jnull) := by
    by_cases h : stringifiable v = true
    · simp [clonePrimitive, jsonRoundtrip, h]
    · rw [Bool.not_eq_true] at h
      simp [clonePrimitive, jsonRoundtrip, h]
  refine ⟨h1, fun hs => ?_, fun hns => ?_⟩
  · rw [h1, stringifiable_of_jsonSafe v hs]
    simp [jsonElim_id v hs]
  · rw [h1, hns]
    simp

/-- Witness for C8 at concrete inputs: a JSON-safe array is copied
as-is, and the two non-copyable shapes yield the `null` sentinel. -/
theorem c8_witness :
    clonePrimitive (.jarr [.jnum 1, .jstr "x"]) = .jarr [.jnum 1, .jstr "x"]
    ∧ clonePrimitive .undefined = .jnull
    ∧ clonePrimitive (.jfunc 0) = .jnull :=
  ⟨(c8_clonePrimitive_never_throws_faithful_copy (.jarr [.jnum 1, .jstr "x"])).2.1 rfl,
   (c8_clonePrimitive_never_throws_faithful_copy .undefined).2.2 rfl,
   (c8_clonePrimitive_never_throws_faithful_copy (.jfunc 0)).2.2 rfl⟩

/-- C4, counterexample: the claim states the completion handler fires
exactly once per invocation driven through `Executor.execute`, never
zero times, regardless of calling convention.  False: in callback mode
completion is driven solely by the wrapping callback, so a callable
that never invokes its callback (here: last argument is a function,
`isAsync` undefined, the callable just returns) fires the handler zero
times. -/
theorem c4_counterexample_handler_can_fire_zero_times :
    (execute ⟨[], .ret .undefined, .ret .undefined, [], .pending⟩ (.jfunc 9)
        (.jbool false) .undefined [.jfunc 5]).handlerArgs.length ≠ 1 := by
  decide

/-- C4, amended: for every invocation driven through `Executor.execute`
with a callable `outputHandler`, the completion handler fires exactly
once provided the callable settles its convention exactly once — in
callback mode it invokes the callback exactly once over the call's
lifetime and returns (rather than also throwing), and outside callback
mode a returned promise (with `isAsync` not strictly `false`) settles;
synchronous returns and throws need no proviso.  (A callable that
invokes its callback zero or two times fires the handler zero or two
times, and one that both invokes the callback and throws adds a second
firing through the catch.) -/
theorem c4_handler_fires_exactly_once_when_convention_settles_once
    (m : MethodBehavior) (h c ia : JSVal) (ps : List JSVal) (hid : Nat)
    (hres : resolveHandler h = .jfunc hid)
    (hcb1 : returnWithCBOf ia ps = true →
        m.cbCallsBefore.length + m.cbCallsAfter.length = 1
        ∧ ∃ v, outcomeOf m (resolveConstruct c) = .ret v)
    (hcb2 : returnWithCBOf ia ps = false →
        ∀ v, outcomeOf m (resolveConstruct c) = .ret v →
          (!strictFalse ia && isPromise v) = true → m.fate ≠ .pending) :
    (execute m h c ia ps).handlerArgs.length = 1 := by
  have hrw : (execute m h c ia ps).handlerArgs
      = (executeCore m (.jfunc hid) (resolveConstruct c) ia ps).1.handlerArgs := by
    rw [← hres]; rfl
  by_cases hcb : returnWithCBOf ia ps = true
  · obtain ⟨pid, hlast⟩ := returnWithCB_lastFunc ia ps hcb
    obtain ⟨hlen, v, hv⟩ := hcb1 hcb
    rw [hrw, (executeCore_cb m (resolveConstruct c) ia ps hid pid hcb hlast).1, hv]
    simp only [List.length_append, List.length_map, List.length_nil]
    omega
  · rw [Bool.not_eq_true] at hcb
    rw [hrw, (executeCore_noncb m (resolveConstruct c) ia ps hid hcb).1]
    cases ho : outcomeOf m (resolveConstruct c) with
    | thrown e => simp
    | ret v =>
      by_cases hpr : (!strictFalse ia && isPromise v) = true
      · cases hf : m.fate with
        | pending => exact absurd hf (hcb2 hcb v ho hpr)
        | resolved w => simp [hpr, hf]
        | rejected e => simp [hpr, hf]
      · rw [Bool.not_eq_true] at hpr
        simp [hpr]

/-- Witness for C4 at a concrete input: a plain synchronous call
(`isAsync` undefined, no trailing callback, returning `undefined`)
fires the handler exactly once. -/
theorem c4_witness :
    (execute ⟨[], .ret .undefined, .ret .undefined, [], .resolved .jnull⟩ (.jfunc 9)
        (.jbool false) .undefined []).handlerArgs.length = 1 :=
  c4_handler_fires_exactly_once_when_convention_settles_once
    ⟨[], .ret .undefined, .ret .undefined, [], .resolved .jnull⟩ (.jfunc 9)
    (.jbool false) .undefined [] 9 rfl
    (fun hh => absurd hh (by decide))
    (fun _ _ _ _ => fun hpend => nomatch hpend)

/-- C5, counterexample: the claim states that the wrapping callback
settles `SettledError` whenever its own first argument is non-null.
False: line 65 tests truthiness, not non-null-ness — here the callable
invokes its callback with the non-null but falsy first argument
`false`, and the wrapper settles success (`outputHandler` receives
`[null, 7]`, not `[false]`); the original callback (function `5`) still
receives the original arguments unchanged. -/
theorem c5_counterexample_false_first_argument_settles_success :
    (execute ⟨[[.jbool false, .jnum 7]], .ret .undefined, .ret .undefined, [], .pending⟩
        (.jfunc 9) (.jbool false) .undefined [.jfunc 5]).handlerArgs
      = [[.jnull, .jnum 7]]
    ∧ [[JSVal.jnull, JSVal.jnum 7]] ≠ [[JSVal.jbool false]]
    ∧ ((execute ⟨[[.jbool false, .jnum 7]], .ret .undefined, .ret .undefined, [], .pending⟩
        (.jfunc 9) (.jbool false) .undefined [.jfunc 5]).trace.getD 1 ⟨0, []⟩).args
      = [.jbool false, .jnum 7] :=
  ⟨rfl, by simp, rfl⟩

/-- C5, amended: whenever `isAsync` is not explicitly disabled (neither
strictly `false` nor strictly `1`) and the last positional argument is a
function, the normalizer replaces it with a wrapping callback that, on
each invocation, settles `SettledError` with the first argument when it
is truthy, settles `SettledSuccess` with the remaining arguments when
it is falsy, and in every case forwards the original arguments
unchanged to the caller-supplied callback afterwards.  Stated for a
single callback invocation `a` of a callable that then returns. -/
theorem c5_wrapping_callback_settles_by_truthiness
    (m : MethodBehavior) (h c ia : JSVal) (ps : List JSVal) (hid pid : Nat)
    (a : List JSVal) (v : JSVal)
    (hres : resolveHandler h = .jfunc hid)
    (hlast : (ps.getLast?).getD .undefined = .jfunc pid)
    (hsf : strictFalse ia = false) (hso : strictOne ia = false)
    (hb : m.cbCallsBefore = [a]) (ha : m.cbCallsAfter = [])
    (hout : outcomeOf m (resolveConstruct c) = .ret v) :
    (execute m h c ia ps).handlerArgs = [settleArgs a]
    ∧ (execute m h c ia ps).trace = [⟨hid, settleArgs a⟩, ⟨pid, a⟩] := by
  have hcb : returnWithCBOf ia ps = true := by
    simp [returnWithCBOf, hsf, hso, hlast, isFunc]
  have hargs : (execute m h c ia ps).handlerArgs
      = (executeCore m (.jfunc hid) (resolveConstruct c) ia ps).1.handlerArgs := by
    rw [← hres]; rfl
  have htr : (execute m h c ia ps).trace
      = (executeCore m (.jfunc hid) (resolveConstruct c) ia ps).1.trace := by
    rw [← hres]; rfl
  have hcore : (executeCore m (.jfunc hid) (resolveConstruct c) ia ps).1
      = ⟨[settleArgs a], [⟨hid, settleArgs a⟩, ⟨pid, a⟩]⟩ := by
    unfold executeCore
    rw [hcb]
    simp [hlast, hb, ha, hout, cbInvokeList_func, cbInvokeAbsorbList]
  rw [hargs, htr, hcore]
  exact ⟨rfl, rfl⟩

/-- Witness for C5 at a concrete input: the callable invokes its
callback with `(null, 7)`; the handler receives the success settlement
`[null, 7]` and the original callback receives `(null, 7)` unchanged. -/
theorem c5_witness :
    (execute ⟨[[.jnull, .jnum 7]], .ret .undefined, .ret .undefined, [], .pending⟩
        (.jfunc 9) (.jbool false) .undefined [.jfunc 5]).handlerArgs
      = [[.jnull, .jnum 7]]
    ∧ (execute ⟨[[.jnull, .jnum 7]], .ret .undefined, .ret .undefined, [], .pending⟩
        (.jfunc 9) (.jbool false) .undefined [.jfunc 5]).trace
      = [⟨9, [.jnull, .jnum 7]⟩, ⟨5, [.jnull, .jnum 7]⟩] := by
  have := c5_wrapping_callback_settles_by_truthiness
    ⟨[[.jnull, .jnum 7]], .ret .undefined, .ret .undefined, [], .pending⟩
    (.jfunc 9) (.jbool false) .undefined [.jfunc 5] 9 5 [.jnull, .jnum 7] .undefined
    rfl rfl rfl rfl rfl rfl rfl
  simpa [settleArgs, truthy] using this

/-- C9, counterexample: the claim states `returnValue` is never
assigned on the constructor path.  False: line 91 runs after the
`Promise` executor regardless of the constructor flag, so with
`construct = true` and `isAsync = true` the field is assigned the
internal promise. -/
theorem c9_counterexample_returnValue_assigned_on_constructor_path :
    (execute ⟨[], .ret .undefined, .ret (.jobj []), [], .pending⟩ (.jfunc 9)
        (.jbool true) (.jbool true) []).returnValue = some (.jpromise prmId)
    ∧ some (JSVal.jpromise prmId) ≠ (none : Option JSVal) :=
  ⟨rfl, fun h => nomatch h⟩

/-- C9, amended: for every combination of flags and arguments (with a
callable `outputHandler`), `Executor.prototype.execute` itself returns
`undefined`, and `returnValue` holds: the internal promise exactly when
`isAsync` is truthy (even on the constructor path); otherwise nothing
on the constructor path; otherwise the callable's synchronous return
value (from line 80, which also runs in callback mode) unless the call
threw, in which case nothing. -/
theorem c9_execute_returns_undefined_and_returnValue_spec
    (m : MethodBehavior) (h c ia : JSVal) (ps : List JSVal) (hid : Nat)
    (hres : resolveHandler h = .jfunc hid) :
    (execute m h c ia ps).executeReturn = .undefined
    ∧ (execute m h c ia ps).returnValue
      = (if truthy ia then some (.jpromise prmId)
         else if truthy (resolveConstruct c) then none
         else match outcomeOf m (resolveConstruct c) with
           | .ret v => some v
           | .thrown _ => none) := by
  refine ⟨execute_executeReturn m h c ia ps, ?_⟩
  rw [execute_returnValue]
  by_cases hia : truthy ia = true
  · simp [hia]
  · rw [Bool.not_eq_true] at hia
    simp only [hia, Bool.false_eq_true, if_false]
    rw [hres]
    by_cases hcb : returnWithCBOf ia ps = true
    · obtain ⟨pid, hlast⟩ := returnWithCB_lastFunc ia ps hcb
      rw [(executeCore_cb m (resolveConstruct c) ia ps hid pid hcb hlast).2]
      cases ho : outcomeOf m (resolveConstruct c) <;>
        by_cases hcv : truthy (resolveConstruct c) = true <;> simp [hcv]
    · rw [Bool.not_eq_true] at hcb
      rw [(executeCore_noncb m (resolveConstruct c) ia ps hid hcb).2]
      cases ho : outcomeOf m (resolveConstruct c) <;>
        by_cases hcv : truthy (resolveConstruct c) = true <;> simp [hcv]

/-- Witness for C9 at a concrete input: a non-constructor synchronous
call with falsy `isAsync` leaves the synchronous return value in
`returnValue`, and `execute` returns `undefined`. -/
theorem c9_witness :
    (execute ⟨[], .ret (.jnum 42), .ret (.jobj []), [], .pending⟩ (.jfunc 9)
        (.jbool false) (.jbool false) [.jnum 5]).executeReturn = .undefined
    ∧ (execute ⟨[], .ret (.jnum 42), .ret (.jobj []), [], .pending⟩ (.jfunc 9)
        (.jbool false) (.jbool false) [.jnum 5]).returnValue = some (.jnum 42) := by
  have := c9_execute_returns_undefined_and_returnValue_spec
    ⟨[], .ret (.jnum 42), .ret (.jobj []), [], .pending⟩ (.jfunc 9)
    (.jbool false) (.jbool false) [.jnum 5] 9 rfl
  simpa [truthy, resolveConstruct, isUndefined, outcomeOf] using this

set_option maxRecDepth 8192 in
/-- C6: the claim states that every closed fixture stream's accumulated
content (header, appended records, footer `]`) parses as one complete,
syntactically valid JSON document.  The code violates this for every
stream: the header template (logger line 49) lacks the closing quote
after the interpolated path, the object opened by the header's brace is
never closed (the footer closes only the array), and `log` appends
records with no separating comma.  Concretely, for
`sourcePath = "a"`, `fileBaseName = "b"`: the empty closed stream's
content is shown below and is not valid JSON, and appending one
well-formed record still leaves the document invalid. -/
theorem c6_closed_stream_content_is_not_valid_json :
    streamContent "a" "b" []
      = "\x7b\"type\":\"unit\",\"require\":\"a/b,\"tests\":[]\n"
    ∧ jsonValid (streamContent "a" "b" []) = false
    ∧ jsonValid (streamContent "a" "b"
        ["\x7b \"require\": null, \"request\": \x7b \"payload\": [], \"construct\": false, \"method\": \"m\" \x7d, \"output\": \x7b \"output\": 5 \x7d \x7d"])
      = false :=
  ⟨rfl, rfl, rfl⟩

/-- C10, counterexample: the claim states that whenever the `config`
argument is an object and `config.srcdir` a string, construction sets
`srcdir`, derives `destdir` and populates `filelist`.  False: with
`config.destdir` absent and the single-segment `srcdir = "x"`,
`srcdir.split(sep).slice(-3, -1)[0]` is `undefined` and `path.join`
throws a `TypeError` during the `destdir` derivation (line 38), so a
config satisfying both preconditions still fails construction (before
any filesystem operation). -/
theorem c10_counterexample_valid_config_still_throws :
    typeofJS (.jobj [("srcdir", .jstr "x")]) = "object"
    ∧ typeofJS (.jstr "x") = "string"
    ∧ getProp (.jobj [("srcdir", .jstr "x")]) "srcdir" = .ok (.jstr "x")
    ∧ tcgenCtor (.jobj [("srcdir", .jstr "x")]) "/tmp" (fun _ => [])
      = (.error (.typeError "path.join: argument must be a string"), []) :=
  ⟨rfl, rfl, rfl, rfl⟩

/-- C10, amended: constructing a `Tcgen` throws before touching the
filesystem whenever the preconditions fail — an assertion error when
`typeof config` is not `object`, a `TypeError` when `config` is `null`
(whose `typeof` is `object`, so the first assert passes and the
`config.srcdir` read throws), and an assertion error when
`config.srcdir` is not of type string; when both preconditions hold,
construction sets `srcdir`, derives `destdir` and populates `filelist`
— provided the `destdir` derivation itself succeeds (`config.destdir`
truthy, or `srcdir` splitting into at least two separator-delimited
segments); otherwise the derivation throws a `TypeError`, still before
any filesystem operation. -/
theorem c10_ctor_asserts_then_constructs
    (config : JSVal) (tmpdir : String) (walk : String → List String) :
    (typeofJS config ≠ "object" →
      tcgenCtor config tmpdir walk
        = (.error (.assertionError "config MUST_BE_OBJECT"), []))
    ∧ (config = .jnull →
      tcgenCtor config tmpdir walk
        = (.error (.typeError "TypeError: cannot read properties of null"), []))
    ∧ (∀ sv, typeofJS config = "object" → getProp config "srcdir" = .ok sv →
        typeofJS sv ≠ "string" →
        tcgenCtor config tmpdir walk
          = (.error (.assertionError "srcdir MUST_BE_STRING"), []))
    ∧ (∀ s, typeofJS config = "object" →
        getProp config "srcdir" = .ok (.jstr s) →
        (∀ e, resolveDestdir (destdirOf config) tmpdir s = .error e →
          tcgenCtor config tmpdir walk = (.error e, []))
        ∧ (∀ d, resolveDestdir (destdirOf config) tmpdir s = .ok d →
          tcgenCtor config tmpdir walk
            = (.ok ⟨s, d, walk s⟩, ["mkdirp " ++ d, "walk " ++ s]))) := by
  refine ⟨fun hno => ?_, fun hnull => ?_, fun sv hobj hsv hns => ?_,
    fun s hobj hsv => ⟨fun e herr => ?_, fun d hok => ?_⟩⟩
  · simp [tcgenCtor, hno]
  · subst hnull
    simp [tcgenCtor, typeofJS, getProp]
  · simp [tcgenCtor, hobj, hsv, hns]
  · unfold tcgenCtor
    rw [hobj, hsv]
    simp [herr, typeofJS]
  · unfold tcgenCtor
    rw [hobj, hsv]
    simp [hok, typeofJS]

/-- Witness for C10 at a concrete input: an object config with a
four-segment `srcdir` and no `destdir` constructs successfully — the
state holds `srcdir`, the derived default `destdir` under the temporary
directory, and the walked file list; the filesystem trace shows the
directory creation and the walk. -/
theorem c10_witness :
    tcgenCtor (.jobj [("srcdir", .jstr "a/b/c/d")]) "/tmp"
        (fun _ => ["a/b/c/d/e.js"])
      = (.ok ⟨"a/b/c/d", "/tmp/tcgen/b", ["a/b/c/d/e.js"]⟩,
         ["mkdirp /tmp/tcgen/b", "walk a/b/c/d"]) :=
  ((c10_ctor_asserts_then_constructs (.jobj [("srcdir", .jstr "a/b/c/d")]) "/tmp"
      (fun _ => ["a/b/c/d/e.js"])).2.2.2 "a/b/c/d" rfl rfl).2 "/tmp/tcgen/b" rfl

end TcgenModel
